import Mathlib

/-!
Shallow embedding of the robot-blocks graph editor core
(frontend/src/App.jsx): the block catalog, the graph store and its
mutation operations, connection validation, execution-order derivation,
graph.v1 serialization/import, the run guard, and the inspector's
parameter-edit coercion.  Definitions mirror the JavaScript source;
JS numbers are modelled as rationals (exact on the decimal literals the
app manipulates) and JS runtime builtins used by the source
(String.prototype.trim, Number, localeCompare, Array.prototype.sort)
are modelled on the fragment of inputs the app exercises, as documented
at each definition.
-/

namespace RobotBlocks

/-- A JavaScript parameter value as stored in a node's `params` object:
a finite number (modelled as a rational), one of the two infinite
number values `Infinity` / `-Infinity` (`inf false` / `inf true`), a
string, or a boolean.  NaN never needs representing: the only code path
that could produce it (the inspector's `Number` coercion) checks
`Number.isNaN` and stores the raw string instead. -/
inductive JSValue where
  | num (q : ℚ)
  | inf (neg : Bool)
  | str (s : String)
  | bool (b : Bool)
deriving DecidableEq, Repr

/-- JS truthiness for the values that can appear in `params`
(`0`, `""` and `false` are falsy; the infinities are truthy). -/
def jsTruthy : JSValue → Bool
  | .num q => q ≠ 0
  | .inf _ => true
  | .str s => s ≠ ""
  | .bool b => b

/-- JS `a || b` on strings: `a` when non-empty (truthy), else `b`. -/
def jsOrS (a b : String) : String :=
  if a = "" then b else a

/-- Models `String.prototype.startsWith(pre)`: character-list prefix
test (structurally recursive, unlike the built-in `String.startsWith`,
so that concrete stores evaluate). -/
def jsStartsWith (s pre : String) : Bool :=
  pre.toList.isPrefixOf s.toList

/-- Models `String.prototype.trim()` (and the whitespace stripping
performed by `Number`): drop leading and trailing whitespace
characters. -/
def jsTrim (s : String) : String :=
  String.mk
    (((s.toList.dropWhile Char.isWhitespace).reverse.dropWhile
        Char.isWhitespace).reverse)

/-- A node's `params` object: an insertion-ordered map with unique keys,
as a JS object literal is. -/
abbrev Params := List (String × JSValue)

/-- Key lookup in a `params` object (JS property access, `undefined` as
`none`). -/
def lookupParam (ps : Params) (k : String) : Option JSValue :=
  match ps with
  | [] => none
  | p :: rest => if p.1 = k then some p.2 else lookupParam rest k

/-- JS `{ ...ps, [k]: v }`: replace the value at an existing key in
place (object keys are unique, so at the first occurrence), or append
the key at the end. -/
def jsSet (ps : Params) (k : String) (v : JSValue) : Params :=
  match ps with
  | [] => [(k, v)]
  | p :: rest => if p.1 = k then (k, v) :: rest else p :: jsSet rest k v

/-- A port declaration `{ name, type }` in the block catalog. -/
structure PortSpec where
  name : String
  type : String
deriving DecidableEq, Repr

/-- One entry of `BLOCK_CATALOG`: label, category, typed ports and
parameter defaults. -/
structure BlockSpec where
  label : String
  category : String
  inputs : List PortSpec
  outputs : List PortSpec
  params : Params
deriving DecidableEq, Repr

/-- The static `BLOCK_CATALOG` object of App.jsx (property access on a
missing key gives `undefined`, i.e. `none`). -/
def BLOCK_CATALOG : String → Option BlockSpec
  | "constant_cmd" => some
      { label := "Constant Cmd", category := "input",
        inputs := [],
        outputs := [⟨"command", "cartesian_cmd"⟩],
        params := [("dx", .num 0), ("dy", .num 0), ("dz", .num 0),
                   ("drx", .num 0), ("dry", .num 0), ("drz", .num 0)] }
  | "cartesian_control" => some
      { label := "Cartesian Control", category := "control",
        inputs := [⟨"state", "robot_state"⟩],
        outputs := [⟨"command", "cartesian_cmd"⟩],
        params := [("goal_x", .num (1/2)), ("step", .num (1/200))] }
  | "mujoco_sim" => some
      { label := "MuJoCo Sim", category := "sim",
        inputs := [⟨"command", "cartesian_cmd"⟩],
        outputs := [⟨"state", "robot_state"⟩],
        params := [("model_path", .str ""), ("dof_index", .num 0),
                   ("dx_scale", .num 1), ("apply_mode", .str "qpos"),
                   ("substeps_per_tick", .num 1),
                   ("max_abs_x", .num 1000000000)] }
  | "logger" => some
      { label := "Logger", category := "sink",
        inputs := [⟨"state", "robot_state"⟩],
        outputs := [],
        params := [("tag", .str "run"), ("every_n", .num 1)] }
  | _ => none

/-- `getPortType(nodeType, portName, direction)` of App.jsx: resolve a
port's data type against the catalog, `null` (`none`) when the block
type or the port name is unknown. -/
def getPortType (nodeType portName direction : String) : Option String :=
  match BLOCK_CATALOG nodeType with
  | none => none
  | some spec =>
    let list := if direction = "input" then spec.inputs else spec.outputs
    match list.find? (fun p => p.name == portName) with
    | some found => some found.type
    | none => none

/-- A placed node as held in the `nodes` React state: id, type, label,
position, z-index and parameter map. -/
structure Node where
  id : String
  type : String
  label : String
  x : ℚ
  y : ℚ
  z : Nat
  params : Params
deriving DecidableEq, Repr

/-- An edge as held in the `edges` React state (and in the graph.v1
document): flattened `"nodeId.port"` endpoint keys plus the cached
message type.  The source field names are `from`/`to`; `from` is a Lean
keyword, hence `efrom`/`eto`. -/
structure Edge where
  efrom : String
  eto : String
  msg_type : String
deriving DecidableEq, Repr

/-- The run-configuration state `runCfg` (the opaque `overrides` object
is never read or written by the modelled code paths and is omitted). -/
structure RunCfg where
  duration_sec : ℚ
  hz : ℚ
  viewer : Bool
deriving DecidableEq, Repr

/-- The pending output endpoint of an in-flight connection
(`pendingFrom` state): `{ nodeId, port, msgType }`. -/
structure Pending where
  nodeId : String
  port : String
  msgType : String
deriving DecidableEq, Repr

/-- The editor state relevant to the graph core: the `nodes` and `edges`
React state, the `maxZRef` counter, the selection, the pending
connection endpoint and the run configuration. -/
structure Store where
  nodes : List Node
  edges : List Edge
  maxZ : Nat
  selectedNodeId : Option String
  pendingFrom : Option Pending
  runCfg : RunCfg
deriving DecidableEq, Repr

/-- The initial `nodes`/`edges`/`maxZRef` state of App.jsx, parametrised
by the two random `uid()` suffixes. -/
def initStore (simUid ctrlUid : String) : Store :=
  { nodes :=
      [ { id := "mujoco_sim_" ++ simUid, type := "mujoco_sim",
          label := "MuJoCo Sim", x := 260, y := 140, z := 1,
          params := [("model_path", .str ""), ("dof_index", .num 0),
                     ("dx_scale", .num 1), ("apply_mode", .str "qpos"),
                     ("substeps_per_tick", .num 1),
                     ("max_abs_x", .num 1000000000)] },
        { id := "cartesian_control_" ++ ctrlUid, type := "cartesian_control",
          label := "Cartesian Control", x := 760, y := 140, z := 2,
          params := [("goal_x", .num (1/2)), ("step", .num (1/200))] } ],
    edges := [],
    maxZ := 2,
    selectedNodeId := none,
    pendingFrom := none,
    runCfg := { duration_sec := 10, hz := 20, viewer := true } }

/-- `addNode(type)` of App.jsx.  The spawn position, the random `uid()`
suffix and the (already trimmed) `DEFAULT_MUJOCO_MODEL` environment
value are passed as arguments.  Returns the new store and the toast
message shown, if any: an unknown type returns early with no mutation
and no message. -/
def addNode (s : Store) (ty : String) (newUid : String) (pos : ℚ × ℚ)
    (defaultModel : String) : Store × Option String :=
  match BLOCK_CATALOG ty with
  | none => (s, none)
  | some spec =>
    let id := ty ++ "_" ++ newUid
    let nextZ := (if s.maxZ = 0 then 1 else s.maxZ) + 1
    let params0 := spec.params
    -- params.model_path = DEFAULT_MUJOCO_MODEL || params.model_path || ""
    let mpOld : JSValue := (lookupParam params0 "model_path").getD (.str "")
    let mp : JSValue :=
      if defaultModel ≠ "" then .str defaultModel
      else if jsTruthy mpOld then mpOld else .str ""
    let params := if ty = "mujoco_sim" then jsSet params0 "model_path" mp
                  else params0
    let newNode : Node :=
      { id := id, type := ty, label := spec.label,
        x := pos.1, y := pos.2, z := nextZ, params := params }
    ({ s with nodes := s.nodes ++ [newNode], maxZ := nextZ,
              selectedNodeId := some id }, some "Node added")

/-- `removeSelectedNode()` of App.jsx: no-op without a selection,
otherwise remove the node and (in the same event-handler batch, hence
atomically) every edge whose `from` or `to` key starts with
`id ++ "."`. -/
def removeSelectedNode (s : Store) : Store × Option String :=
  match s.selectedNodeId with
  | none => (s, none)
  | some id =>
    ({ s with
        nodes := s.nodes.filter (fun n => n.id ≠ id),
        edges := s.edges.filter
          (fun e => ¬ (jsStartsWith e.efrom (id ++ ".") ||
                       jsStartsWith e.eto (id ++ "."))),
        selectedNodeId := none }, some "Node deleted")

/-- `updateSelectedParam(key, value)` of App.jsx: rewrite only the
selected node's `params` at `key`. -/
def updateSelectedParam (s : Store) (key : String) (value : JSValue) : Store :=
  match s.selectedNodeId with
  | none => s
  | some sel =>
    { s with nodes := s.nodes.map (fun n =>
        if n.id = sel then { n with params := jsSet n.params key value }
        else n) }

/-- `clearCanvas()` of App.jsx: empties nodes and edges and clears the
selection.  Note that it does not reset the `maxZRef` counter. -/
def clearCanvas (s : Store) : Store × Option String :=
  ({ s with nodes := [], edges := [], selectedNodeId := none }, some "Cleared")

/-- One endpoint argument of `canConnect`: `{ nodeId, port }`. -/
structure EndRef where
  nodeId : String
  port : String
deriving DecidableEq, Repr

/-- Result of `canConnect`: `{ ok: true, msg_type }` or
`{ ok: false, reason }`. -/
inductive ConnResult where
  | ok (msg_type : String)
  | fail (reason : String)
deriving DecidableEq, Repr

/-- `nodes.find(n => n.id === nid)`. -/
def findNode (s : Store) (nid : String) : Option Node :=
  s.nodes.find? (fun n => n.id == nid)

/-- `canConnect(from, to)` of App.jsx: the validation cascade run when a
pending output endpoint is dropped on an input port. -/
def canConnect (fromRef toRef : Option EndRef) (s : Store) : ConnResult :=
  match fromRef, toRef with
  | some f, some t =>
    if f.nodeId = t.nodeId then .fail "Same node"
    else
      match findNode s f.nodeId, findNode s t.nodeId with
      | some fromNode, some toNode =>
        match getPortType fromNode.type f.port "output",
              getPortType toNode.type t.port "input" with
        | some outType, some inType =>
          if outType ≠ inType then
            .fail ("Type mismatch: " ++ outType ++ " → " ++ inType)
          else
            let fromKey := f.nodeId ++ "." ++ f.port
            let toKey := t.nodeId ++ "." ++ t.port
            if s.edges.any (fun e => e.efrom == fromKey && e.eto == toKey) then
              .fail "Edge already exists"
            else .ok outType
        | _, _ => .fail "Port not found"
      | _, _ => .fail "Node not found"
  | _, _ => .fail "Missing endpoint"

/-- `onOutputMouseDown(nodeId, portName)` of App.jsx: enter the
PendingFrom state when the output port resolves, otherwise no-op. -/
def onOutputMouseDown (s : Store) (nodeId portName : String) :
    Store × Option String :=
  match findNode s nodeId with
  | none => (s, none)
  | some node =>
    match getPortType node.type portName "output" with
    | none => (s, none)
    | some msgType =>
      ({ s with pendingFrom := some ⟨nodeId, portName, msgType⟩ },
       some ("Select input for: " ++ portName ++ " (" ++ msgType ++ ")"))

/-- `onInputMouseUp(nodeId, portName)` of App.jsx (the `completeTo`
transition): validate via `canConnect`; on failure clear the pending
state and report the reason, on success append the edge and clear the
pending state. -/
def onInputMouseUp (s : Store) (nodeId portName : String) :
    Store × Option String :=
  match s.pendingFrom with
  | none => (s, none)
  | some pf =>
    match canConnect (some ⟨pf.nodeId, pf.port⟩) (some ⟨nodeId, portName⟩) s with
    | .fail reason => ({ s with pendingFrom := none }, some reason)
    | .ok msgType =>
      let fromKey := pf.nodeId ++ "." ++ pf.port
      let toKey := nodeId ++ "." ++ portName
      ({ s with edges := s.edges ++ [⟨fromKey, toKey, msgType⟩],
                pendingFrom := none }, some "Connected ✅")

/-- The canvas `onMouseDown` handler of App.jsx: cancel any pending
connection (with a toast) and clear the selection. -/
def canvasMouseDown (s : Store) : Store × Option String :=
  match s.pendingFrom with
  | some _ => ({ s with pendingFrom := none, selectedNodeId := none },
               some "Cancelled connection")
  | none => ({ s with selectedNodeId := none }, none)

/-- Models `String.prototype.localeCompare()` as used by the sort
comparator: a three-way comparison returning a negative, zero or
positive number.  The host's default-locale collation is modelled by
code-unit order; on equal strings (the only case any theorem below
depends on tie behaviour) every locale collation returns 0, as this
model does. -/
def localeCompare (a b : String) : Int :=
  if a < b then -1 else if b < a then 1 else 0

/-- The `prio` helper of `computeExecutionOrder`:
`BLOCK_CATALOG[type]?.category || "other"` mapped to a tier number. -/
def prio (ty : String) : Int :=
  let cat := jsOrS (match BLOCK_CATALOG ty with
                    | some sp => sp.category
                    | none => "") "other"
  if cat = "input" then 0
  else if cat = "control" then 1
  else if cat = "sim" then 2
  else if cat = "sink" then 3
  else 4

/-- The `byOrder` comparator of `computeExecutionOrder`: priority
difference when the tiers differ, else the collation of the
concatenated `label + id` strings. -/
def byOrder (a b : Node) : Int :=
  if prio a.type ≠ prio b.type then prio a.type - prio b.type
  else localeCompare (a.label ++ a.id) (b.label ++ b.id)

/-- "`a` may be placed before `b`" for the stable sort: comparator
result at most 0. -/
def byOrderLe (a b : Node) : Bool :=
  byOrder a b ≤ 0

/-- `computeExecutionOrder(nodes)` of App.jsx.  `Array.prototype.sort`
with a comparator is stable (ES2019) and is modelled by the stable
`List.mergeSort` with `byOrderLe`. -/
def computeExecutionOrder (nodes : List Node) : List String :=
  (nodes.mergeSort byOrderLe).map (fun n => n.id)

/-- A node entry of the graph.v1 exchange document:
`{id, type, label, params, ui:{x,y}}`. -/
structure GNodeDoc where
  id : String
  type : String
  label : String
  params : Params
  ui : ℚ × ℚ
deriving DecidableEq, Repr

/-- The graph.v1 exchange document built by `buildGraphV1`. -/
structure GraphV1 where
  version : String
  execution_order : List String
  nodes : List GNodeDoc
  edges : List Edge
  run_config : RunCfg
deriving DecidableEq, Repr

/-- The per-node projection of `buildGraphV1`:
`{ id, type, label, params, ui: {x, y} }`. -/
def buildNodeDoc (n : Node) : GNodeDoc :=
  { id := n.id, type := n.type, label := n.label,
    params := n.params, ui := (n.x, n.y) }

/-- `buildGraphV1()` of App.jsx. -/
def buildGraphV1 (s : Store) : GraphV1 :=
  { version := "graph.v1",
    execution_order := computeExecutionOrder s.nodes,
    nodes := s.nodes.map buildNodeDoc,
    edges := s.edges.map (fun e => Edge.mk e.efrom e.eto e.msg_type),
    run_config := s.runCfg }

/-- A parsed JSON document handed to `importGraph`: every field may be
absent (`undefined`).  A `null`/non-object parse result is modelled as
`none` at the call site. -/
structure ImportDoc where
  version : Option String
  nodes : Option (List GNodeDoc)
  edges : Option (List Edge)
  run_config : Option RunCfg
deriving DecidableEq, Repr

/-- View a built graph.v1 document as an import input (all fields
present). -/
def GraphV1.toImportDoc (g : GraphV1) : ImportDoc :=
  { version := some g.version, nodes := some g.nodes,
    edges := some g.edges, run_config := some g.run_config }

/-- The per-node conversion of `importGraph` at array index `i`:
`label: n.label || BLOCK_CATALOG[n.type]?.label || n.type`,
`x/y: Number(ui.x || 0)` (the identity on a numeric `ui` field),
`z: i + 1`, `params: n.params || {}`. -/
def importNode (i : Nat) (n : GNodeDoc) : Node :=
  { id := n.id, type := n.type,
    label := jsOrS n.label (jsOrS (match BLOCK_CATALOG n.type with
                                   | some sp => sp.label
                                   | none => "") n.type),
    x := n.ui.1, y := n.ui.2, z := i + 1, params := n.params }

/-- `gNodes.map((n, i) => ...)` of `importGraph`, carrying the index. -/
def importNodesFrom (i : Nat) : List GNodeDoc → List Node
  | [] => []
  | n :: rest => importNode i n :: importNodesFrom (i + 1) rest

/-- The running `maxZ = Math.max(maxZ, z)` fold of `importGraph` over
`z = i + 1`, started at 1. -/
def importMaxZFrom (i : Nat) (m : Nat) : List GNodeDoc → Nat
  | [] => m
  | _ :: rest => importMaxZFrom (i + 1) (Nat.max m (i + 1)) rest

/-- `importGraph` of App.jsx, applied to an already-parsed document
(`none` models a falsy `JSON.parse` result).  A missing or non-matching
`version` throws `new Error("Not a graph.v1 file")`, caught and
surfaced as the `Import failed: ...` toast with the store untouched. -/
def importGraph (doc : Option ImportDoc) (s : Store) : Store × Option String :=
  match doc with
  | none => (s, some "Import failed: Error: Not a graph.v1 file")
  | some g =>
    if g.version ≠ some "graph.v1" then
      (s, some "Import failed: Error: Not a graph.v1 file")
    else
      let gNodes := g.nodes.getD []
      let gEdges := g.edges.getD []
      -- g.run_config || runCfg (a present RunCfg object is always truthy)
      let gRun := g.run_config.getD s.runCfg
      ({ s with
          nodes := importNodesFrom 0 gNodes,
          edges := gEdges.map (fun e => ⟨e.efrom, e.eto, e.msg_type⟩),
          maxZ := importMaxZFrom 0 1 gNodes,
          runCfg := gRun,
          selectedNodeId := none }, some "Imported ✅")

/-- Value of a decimal digit string read left to right. -/
def digitsVal (cs : List Char) : Nat :=
  cs.foldl (fun a c => a * 10 + (c.toNat - 48)) 0

/-- Value of one hexadecimal digit character, if it is one. -/
def hexDigitVal (c : Char) : Option Nat :=
  if c.isDigit then some (c.toNat - 48)
  else if 'a' ≤ c ∧ c ≤ 'f' then some (c.toNat - 87)
  else if 'A' ≤ c ∧ c ≤ 'F' then some (c.toNat - 55)
  else none

/-- Value of one digit character in the given radix (2, 8 or 16), if it
is one. -/
def radixDigitVal (radix : Nat) (c : Char) : Option Nat :=
  match hexDigitVal c with
  | some v => if v < radix then some v else none
  | none => none

/-- A non-empty unsigned integer in the given radix (the digit part of
the `0x`/`0o`/`0b` `Number` string forms); NaN (`none`) when empty or
when any character is not a digit of the radix. -/
def parseRadix (radix : Nat) (ds : List Char) : Option ℚ :=
  if ds.isEmpty then none
  else
    (ds.foldl
      (fun acc c =>
        match acc, radixDigitVal radix c with
        | some a, some v => some (a * radix + v)
        | _, _ => none)
      (some (0 : Nat))).map (fun nn => (nn : ℚ))

/-- The exponent digits after `e`/`E` and an optional sign: NaN when
empty or non-decimal, else the mantissa scaled by the power of ten. -/
def parseExpDigits (t : List Char) (mantissa : ℚ) : Option ℚ :=
  let (eneg, ds) :=
    match t with
    | '-' :: u => (true, u)
    | '+' :: u => (false, u)
    | u => (false, u)
  if ds.isEmpty || !ds.all Char.isDigit then none
  else
    let e : ℤ := digitsVal ds
    some (mantissa * (10 : ℚ) ^ (if eneg then -e else e))

/-- The optional `ExponentPart` at the end of a decimal `Number` form:
nothing, or `e`/`E` followed by exponent digits; anything else NaN. -/
def parseExpPart (cs : List Char) (mantissa : ℚ) : Option ℚ :=
  match cs with
  | [] => some mantissa
  | 'e' :: t => parseExpDigits t mantissa
  | 'E' :: t => parseExpDigits t mantissa
  | _ => none

/-- `StrUnsignedDecimalLiteral` of the ECMA-262 `Number(string)`
grammar: the literal `Infinity`, or decimal digits with an optional
fraction (at least one digit overall) and an optional exponent. -/
def parseUnsignedDec (cs : List Char) : Option JSValue :=
  if cs = "Infinity".toList then some (.inf false)
  else
    let intPart := cs.takeWhile Char.isDigit
    let rest1 := cs.drop intPart.length
    let mq : Option ℚ :=
      match rest1 with
      | '.' :: rest2 =>
        let frac := rest2.takeWhile Char.isDigit
        let rest3 := rest2.drop frac.length
        if intPart.isEmpty && frac.isEmpty then none
        else
          parseExpPart rest3
            ((digitsVal intPart : ℚ) +
             (digitsVal frac : ℚ) / (10 : ℚ) ^ frac.length)
      | _ =>
        if intPart.isEmpty then none
        else parseExpPart rest1 (digitsVal intPart)
    mq.map (fun q => .num q)

/-- JS unary minus on a parsed number value. -/
def jsNegate : JSValue → JSValue
  | .num q => .num (-q)
  | .inf b => .inf (!b)
  | v => v

/-- `StrDecimalLiteral`: an optional sign followed by an unsigned
decimal literal (a sign is not allowed on the radix forms, which are
dispatched before this). -/
def parseSignedDec (cs : List Char) : Option JSValue :=
  match cs with
  | '-' :: t => (parseUnsignedDec t).map jsNegate
  | '+' :: t => parseUnsignedDec t
  | t => parseUnsignedDec t

/-- Models the JS `Number(raw)` string-to-number conversion, i.e. the
ECMA-262 `StringNumericLiteral` grammar: surrounding whitespace is
ignored, the empty/blank string is 0, the unsigned `0x`/`0X`, `0o`/`0O`
and `0b`/`0B` radix forms, and otherwise an optionally signed decimal
literal (digits with optional fraction and exponent, or `Infinity`);
everything else is NaN (`none`).  Values are exact rationals plus the
two infinities: the float64 rounding of a real JS runtime (e.g. `0.1`,
or the overflow of huge exponents to `Infinity`) is not modelled — but
NaN-ness, which alone decides the inspector's number-versus-raw-string
branch, agrees with JS on every input. -/
def jsNumber (raw : String) : Option JSValue :=
  let s := jsTrim raw
  if s = "" then some (.num 0)
  else
    match s.toList with
    | '0' :: 'x' :: ds => (parseRadix 16 ds).map (fun q => .num q)
    | '0' :: 'X' :: ds => (parseRadix 16 ds).map (fun q => .num q)
    | '0' :: 'o' :: ds => (parseRadix 8 ds).map (fun q => .num q)
    | '0' :: 'O' :: ds => (parseRadix 8 ds).map (fun q => .num q)
    | '0' :: 'b' :: ds => (parseRadix 2 ds).map (fun q => .num q)
    | '0' :: 'B' :: ds => (parseRadix 2 ds).map (fun q => .num q)
    | cs => parseSignedDec cs

/-- The inspector parameter input `onChange` handler of App.jsx:
`model_path` is stored as the raw string; every other key stores
`Number(raw)` exactly when the trimmed input is non-empty and the
conversion is not NaN, and the raw string otherwise. -/
def inspectorParamInput (s : Store) (k raw : String) : Store :=
  if k = "model_path" then updateSelectedParam s k (.str raw)
  else
    let next : JSValue :=
      match jsNumber raw with
      | some v => if jsTrim raw ≠ "" then v else .str raw
      | none => .str raw
    updateSelectedParam s k next

/-- `(v || "").trim()` applied to the looked-up `model_path` property
in `validateForRun`: a missing or falsy value collapses to `""`; a
truthy non-string value would throw a TypeError at `.trim()`, modelled
as `none`. -/
def trimOrFalsy : Option JSValue → Option String
  | none => some ""
  | some v =>
    if jsTruthy v then
      match v with
      | .str str => some (jsTrim str)
      | _ => none
    else some ""

/-- Result of `validateForRun`. -/
inductive RunCheck where
  | ok
  | fail (reason : String)
deriving DecidableEq, Repr

/-- The `for (const n of nodes)` loop of `validateForRun`: the id of
the first `mujoco_sim` node whose trimmed `model_path` is empty
(`some (some id)`), `some none` when none is, `none` on a TypeError. -/
def firstEmptyModelPath : List Node → Option (Option String)
  | [] => some none
  | n :: rest =>
    if n.type = "mujoco_sim" then
      match trimOrFalsy (lookupParam n.params "model_path") with
      | none => none
      | some mp =>
        if mp = "" then some (some n.id) else firstEmptyModelPath rest
    else firstEmptyModelPath rest

/-- `validateForRun()` of App.jsx (`none` models an uncaught TypeError
from a truthy non-string `model_path`). -/
def validateForRun (s : Store) : Option RunCheck :=
  if ¬ s.nodes.any (fun n => n.type == "mujoco_sim") then
    some (.fail "No MuJoCo sim node")
  else
    match firstEmptyModelPath s.nodes with
    | none => none
    | some (some id) => some (.fail ("Model path is empty on " ++ id))
    | some none =>
      if s.edges.length = 0 then some (.fail "No connections (edges) yet")
      else some .ok

/-- Observable outcome of `runFromUI`: either the guard short-circuits
with a toast and no network call, or a POST of the built graph.v1
document is performed. -/
inductive RunOutcome where
  | validationFailed (reason : String)
  | callsBackend (g : GraphV1) (headless : Bool)
deriving DecidableEq, Repr

/-- `runFromUI({headless})` of App.jsx up to the network boundary:
`validateForRun` is consulted first and a failure performs no fetch. -/
def runFromUI (s : Store) (headless : Bool) : Option RunOutcome :=
  match validateForRun s with
  | none => none
  | some (.fail r) => some (.validationFailed r)
  | some .ok => some (.callsBackend (buildGraphV1 s) headless)

/-! ### Specification-side definitions used to state the claims -/

/-- Validation check (a): pending and target belong to the same node. -/
def checkSameNode (f t : EndRef) : Option String :=
  if f.nodeId = t.nodeId then some "Same node" else none

/-- Validation check (b): either endpoint's node id is absent from the
store. -/
def checkNodeNotFound (s : Store) (f t : EndRef) : Option String :=
  if (findNode s f.nodeId).isNone || (findNode s t.nodeId).isNone then
    some "Node not found"
  else none

/-- The data type an endpoint resolves to through its node's schema. -/
def resolvedPortType (s : Store) (r : EndRef) (direction : String) :
    Option String :=
  (findNode s r.nodeId).bind (fun n => getPortType n.type r.port direction)

/-- Validation check (c): an endpoint does not resolve to a declared
port of the required direction. -/
def checkPortNotFound (s : Store) (f t : EndRef) : Option String :=
  match resolvedPortType s f "output", resolvedPortType s t "input" with
  | some _, some _ => none
  | _, _ => some "Port not found"

/-- Validation check (d): both ports resolve but to different data
types; both type names are reported. -/
def checkTypeMismatch (s : Store) (f t : EndRef) : Option String :=
  match resolvedPortType s f "output", resolvedPortType s t "input" with
  | some outT, some inT =>
    if outT ≠ inT then some ("Type mismatch: " ++ outT ++ " → " ++ inT)
    else none
  | _, _ => none

/-- Validation check (e): an edge with the identical (from, to) pair
already exists. -/
def checkDuplicateEdge (s : Store) (f t : EndRef) : Option String :=
  if s.edges.any (fun e => e.efrom == f.nodeId ++ "." ++ f.port &&
                           e.eto == t.nodeId ++ "." ++ t.port) then
    some "Edge already exists"
  else none

/-- The five checks in the order the specification fixes. -/
def connectionChecks (s : Store) (f t : EndRef) : List (Option String) :=
  [checkSameNode f t, checkNodeNotFound s f t, checkPortNotFound s f t,
   checkTypeMismatch s f t, checkDuplicateEdge s f t]

/-- The first failing check of a list, if any. -/
def firstFailure (checks : List (Option String)) : Option String :=
  checks.findSome? id

/-- The connection validation as the specification words it: the first
failing check of the ordered cascade determines the single reported
reason; when every check passes the edge carries the resolved output
type.  (The final fallback is unreachable: when all checks pass the
output port resolves.) -/
def canConnectSpec (s : Store) (f t : EndRef) : ConnResult :=
  match firstFailure (connectionChecks s f t) with
  | some r => .fail r
  | none =>
    match resolvedPortType s f "output" with
    | some outT => .ok outT
    | none => .fail "Port not found"

/-- Referential invariant: every edge endpoint key is anchored at a
node present in the store (the node's `id ++ "."` starts the key). -/
def edgesConsistent (s : Store) : Prop :=
  ∀ e ∈ s.edges,
    (∃ n ∈ s.nodes, jsStartsWith e.efrom (n.id ++ ".")) ∧
    (∃ n ∈ s.nodes, jsStartsWith e.eto (n.id ++ "."))

/-- A node-level user operation: place a block, change the selection,
or delete the selected node. -/
inductive NodeOp where
  | add (ty newUid : String) (pos : ℚ × ℚ) (defaultModel : String)
  | select (sel : Option String)
  | remove
deriving Repr

/-- Apply one node-level operation to the store. -/
def applyNodeOp (s : Store) : NodeOp → Store
  | .add ty newUid pos dm => (addNode s ty newUid pos dm).1
  | .select sel => { s with selectedNodeId := sel }
  | .remove => (removeSelectedNode s).1

/-- Apply a sequence of node-level operations, left to right. -/
def applyNodeOps (s : Store) : List NodeOp → Store
  | [] => s
  | op :: rest => applyNodeOps (applyNodeOp s op) rest

/-- The z tracker dominates every node's z.  This holds in every
reachable store (initial state, add, bring-to-front, import, load,
clear all maintain it) and is the precondition under which a fresh z is
strictly maximal. -/
def zDominated (s : Store) : Prop :=
  ∀ n ∈ s.nodes, n.z ≤ s.maxZ

/-- The run guard's first condition: some `mujoco_sim` node exists. -/
def hasSimNode (s : Store) : Prop :=
  ∃ n ∈ s.nodes, n.type = "mujoco_sim"

/-- The run guard's second condition: every `mujoco_sim` node has a
model path that trims to a non-empty string (in particular the lookup
neither traps nor yields an empty/falsy value). -/
def simModelPathsOk (s : Store) : Prop :=
  ∀ n ∈ s.nodes, n.type = "mujoco_sim" →
    trimOrFalsy (lookupParam n.params "model_path") ≠ none ∧
    trimOrFalsy (lookupParam n.params "model_path") ≠ some ""

/-- The value the inspector handler stores for key `k` and raw input
`raw`: the raw string for `model_path`, otherwise the numeric
conversion exactly when the trimmed input is non-empty and `Number`
does not give NaN, and the raw string otherwise. -/
def storedParamValue (k raw : String) : JSValue :=
  if k = "model_path" then .str raw
  else
    match jsNumber raw with
    | some v => if jsTrim raw ≠ "" then v else .str raw
    | none => .str raw

/-- What the inspector edit does to the store, node by node: edges,
selection, pending state, run config and z tracker untouched; every
non-selected node untouched; the selected node changed only in its
`params` at key `k`, which now holds `storedParamValue k raw`. -/
def inspectorUpdateSpec (s : Store) (sel k raw : String) : Prop :=
  (inspectorParamInput s k raw).edges = s.edges ∧
  (inspectorParamInput s k raw).pendingFrom = s.pendingFrom ∧
  (inspectorParamInput s k raw).runCfg = s.runCfg ∧
  (inspectorParamInput s k raw).maxZ = s.maxZ ∧
  (inspectorParamInput s k raw).selectedNodeId = s.selectedNodeId ∧
  List.Forall₂ (fun n nn =>
      (n.id ≠ sel → nn = n) ∧
      (n.id = sel →
        nn.id = n.id ∧ nn.type = n.type ∧ nn.label = n.label ∧
        nn.x = n.x ∧ nn.y = n.y ∧ nn.z = n.z ∧
        (∀ kk, kk ≠ k → lookupParam nn.params kk = lookupParam n.params kk) ∧
        lookupParam nn.params k = some (storedParamValue k raw)))
    s.nodes (inspectorParamInput s k raw).nodes

/-- Serialize then deserialize: feed the built graph.v1 document back
through `importGraph`. -/
def roundTrip (s : Store) : Store :=
  (importGraph (some (buildGraphV1 s).toImportDoc) s).1

/-- A store holding a single simulator node with a set model path and
no edges (used to exercise the run guard's edge check). -/
def runGuardStore : Store :=
  { nodes := [{ id := "mujoco_sim_aaaaaa", type := "mujoco_sim",
                label := "MuJoCo Sim", x := 0, y := 0, z := 1,
                params := [("model_path", .str "robot.xml")] }],
    edges := [], maxZ := 1, selectedNodeId := none, pendingFrom := none,
    runCfg := { duration_sec := 10, hz := 20, viewer := true } }

/-- A store holding one node whose display label is the empty string
(reachable, e.g., by importing a hand-written document). -/
def emptyLabelStore : Store :=
  { nodes := [{ id := "n1", type := "mujoco_sim", label := "",
                x := 0, y := 0, z := 1, params := [] }],
    edges := [], maxZ := 1, selectedNodeId := none, pendingFrom := none,
    runCfg := { duration_sec := 10, hz := 20, viewer := true } }

/-- A store mixing the label cases: an empty label on a known type, an
empty label on a type absent from the catalog, and a non-empty label
(used to exercise the round-trip label rules). -/
def mixedLabelStore : Store :=
  { nodes :=
      [ { id := "n1", type := "mujoco_sim", label := "",
          x := 0, y := 0, z := 1, params := [] },
        { id := "n2", type := "ghost_block", label := "",
          x := 0, y := 0, z := 2, params := [] },
        { id := "n3", type := "logger", label := "My Logger",
          x := 0, y := 0, z := 3, params := [] } ],
    edges := [], maxZ := 3, selectedNodeId := none, pendingFrom := none,
    runCfg := { duration_sec := 10, hz := 20, viewer := true } }

/-- Two same-category nodes whose label+id concatenations coincide
("ab" ++ "c" and "a" ++ "bc") although the (label, id) pairs differ. -/
def concatCollisionA : Node :=
  { id := "c", type := "logger", label := "ab", x := 0, y := 0, z := 1,
    params := [] }

/-- See `concatCollisionA`. -/
def concatCollisionB : Node :=
  { id := "bc", type := "logger", label := "a", x := 0, y := 0, z := 2,
    params := [] }

/-- The initial store with the controller node selected (used to
exercise the inspector parameter edit). -/
def inspectorStore : Store :=
  { initStore "aaaaaa" "bbbbbb" with
      selectedNodeId := some "cartesian_control_bbbbbb" }

/-- The initial store with a pending output endpoint picked up from the
simulator's `state` output (used to exercise connection failures). -/
def pendingInitStore : Store :=
  { initStore "aaaaaa" "bbbbbb" with
      pendingFrom := some ⟨"mujoco_sim_aaaaaa", "state", "robot_state"⟩ }

/-- A store with one committed edge and both its endpoint nodes (used
to exercise the deletion cascade). -/
def edgeStore : Store :=
  { initStore "aaaaaa" "bbbbbb" with
      edges := [⟨"mujoco_sim_aaaaaa.state",
                 "cartesian_control_bbbbbb.state", "robot_state"⟩] }

instance (s : Store) : Decidable (zDominated s) :=
  inferInstanceAs (Decidable (∀ n ∈ s.nodes, n.z ≤ s.maxZ))

instance (s : Store) : Decidable (hasSimNode s) :=
  inferInstanceAs (Decidable (∃ n ∈ s.nodes, n.type = "mujoco_sim"))

instance (s : Store) : Decidable (simModelPathsOk s) :=
  inferInstanceAs (Decidable (∀ n ∈ s.nodes, n.type = "mujoco_sim" → _ ∧ _))

instance (s : Store) : Decidable (edgesConsistent s) :=
  inferInstanceAs (Decidable (∀ e ∈ s.edges, (∃ n ∈ s.nodes, _) ∧ ∃ n ∈ s.nodes, _))

/-! ### Theorems -/

/-- C6: importing a document whose `version` field is missing or
differs from the literal string "graph.v1" is rejected (the thrown
"Not a graph.v1 file" error is surfaced as the import-failed toast) and
leaves the whole store — in particular nodes, edges and run
configuration — completely unchanged. -/
theorem importGraph_rejects_unsupported_version (doc : Option ImportDoc)
    (s : Store) (h : ∀ g, doc = some g → g.version ≠ some "graph.v1") :
    importGraph doc s = (s, some "Import failed: Error: Not a graph.v1 file") := by
  cases doc with
  | none => rfl
  | some g => simp [importGraph, h g rfl]

/-- Witness for C6: a concrete "graph.v2" document against the initial
store is rejected with the store untouched. -/
theorem importGraph_rejects_unsupported_version_witness :
    importGraph
        (some { version := some "graph.v2", nodes := none, edges := none,
                run_config := none })
        (initStore "aaaaaa" "bbbbbb")
      = (initStore "aaaaaa" "bbbbbb",
         some "Import failed: Error: Not a graph.v1 file") :=
  importGraph_rejects_unsupported_version _ _
    (by intro g hg; cases hg; decide)

/-- C9 (amended): when the given type is not in the block catalog,
`addNode` is a silent no-op — no error value and no toast — and the
store (node list, edge list, z counter and all) is unchanged. -/
theorem addNode_unknown_type_silent_noop (s : Store)
    (ty newUid : String) (pos : ℚ × ℚ) (dm : String)
    (h : BLOCK_CATALOG ty = none) :
    addNode s ty newUid pos dm = (s, none) := by
  simp [addNode, h]

/-- Witness for C9: adding the unknown type "not_a_block" to the
initial store changes nothing and reports nothing. -/
theorem addNode_unknown_type_silent_noop_witness :
    addNode (initStore "aaaaaa" "bbbbbb") "not_a_block" "cafe01" (0, 0) ""
      = (initStore "aaaaaa" "bbbbbb", none) :=
  addNode_unknown_type_silent_noop _ _ _ _ _ (by decide)

/-- C9 counterexample: the failed call emits no message of any kind
(`none`, not an UnknownBlockType error), so the claim's "fails with an
UnknownBlockType error" does not describe the code; the store is,
as the claim also says, unchanged. -/
theorem addNode_unknown_type_no_error_reported :
    (addNode (initStore "aaaaaa" "bbbbbb") "not_a_block" "cafe01" (0, 0) "").2
        = none ∧
    (addNode (initStore "aaaaaa" "bbbbbb") "not_a_block" "cafe01" (0, 0) "").1
        = initStore "aaaaaa" "bbbbbb" ∧
    ∀ errorMessage : String,
      (addNode (initStore "aaaaaa" "bbbbbb") "not_a_block" "cafe01" (0, 0) "").2
        ≠ some errorMessage := by
  refine ⟨rfl, rfl, ?_⟩
  intro errorMessage h
  rw [show (addNode (initStore "aaaaaa" "bbbbbb") "not_a_block" "cafe01"
        (0, 0) "").2 = none from rfl] at h
  exact Option.noConfusion h

/-- C5: a `completeTo` attempt that fails (for any reason the
validation cascade reports) only clears the pending endpoint —
nodes and edges keep their exact values — and cancelling on the canvas
(from PendingFrom or Idle alike) keeps nodes and edges and returns the
engine to Idle. -/
theorem completeTo_failure_and_cancel_preserve_store :
    (∀ (s : Store) (nid port : String) (pf : Pending) (r : String),
        s.pendingFrom = some pf →
        canConnect (some ⟨pf.nodeId, pf.port⟩) (some ⟨nid, port⟩) s
          = .fail r →
        onInputMouseUp s nid port
          = ({ s with pendingFrom := none }, some r)) ∧
    (∀ s : Store,
        (canvasMouseDown s).1.nodes = s.nodes ∧
        (canvasMouseDown s).1.edges = s.edges ∧
        (canvasMouseDown s).1.pendingFrom = none) := by
  constructor
  · intro s nid port pf r hpf hcc
    simp [onInputMouseUp, hpf, hcc]
  · intro s
    cases h : s.pendingFrom <;> simp [canvasMouseDown, h]

/-- Witness for C5: dropping the pending simulator output back onto the
same simulator node fails with "Same node" and only clears the pending
endpoint. -/
theorem completeTo_failure_and_cancel_preserve_store_witness :
    onInputMouseUp pendingInitStore "mujoco_sim_aaaaaa" "command"
      = ({ pendingInitStore with pendingFrom := none }, some "Same node") :=
  completeTo_failure_and_cancel_preserve_store.1 pendingInitStore
    "mujoco_sim_aaaaaa" "command"
    ⟨"mujoco_sim_aaaaaa", "state", "robot_state"⟩ "Same node"
    rfl (by decide)

/-- C8 (amended): adding a node of a known block type appends one node
whose z is `(maxZ == 0 ? 1 : maxZ) + 1` — strictly greater than every
existing node's z whenever the z tracker dominates them (true in every
reachable store) — but never 1: on an empty store it is tracker + 1
(at least 2), because `clearCanvas` does not reset the tracker. -/
theorem addNode_assigns_fresh_max_z (s : Store)
    (ty newUid : String) (pos : ℚ × ℚ) (dm : String) (spec : BlockSpec)
    (hty : BLOCK_CATALOG ty = some spec) (hz : zDominated s) :
    ∃ nn : Node,
      (addNode s ty newUid pos dm).1.nodes = s.nodes ++ [nn] ∧
      nn.z = (if s.maxZ = 0 then 1 else s.maxZ) + 1 ∧
      ∀ n ∈ s.nodes, n.z < nn.z := by
  unfold addNode
  rw [hty]
  refine ⟨_, rfl, rfl, ?_⟩
  intro n hn
  have h1 : n.z ≤ s.maxZ := hz n hn
  by_cases h0 : s.maxZ = 0 <;> simp only [h0, if_pos, if_neg, if_true,
    if_false, reduceIte] <;> omega

/-- Witness for C8: adding a logger to the initial store (tracker 2,
node z values 1 and 2) appends a node with z = 3. -/
theorem addNode_assigns_fresh_max_z_witness :
    BLOCK_CATALOG "logger" = some
      ({ label := "Logger", category := "sink",
         inputs := [⟨"state", "robot_state"⟩], outputs := [],
         params := [("tag", .str "run"), ("every_n", .num 1)] } : BlockSpec) ∧
    zDominated (initStore "aaaaaa" "bbbbbb") ∧
    ∃ nn : Node,
      (addNode (initStore "aaaaaa" "bbbbbb") "logger" "cafe01" (0, 0) "").1.nodes
        = (initStore "aaaaaa" "bbbbbb").nodes ++ [nn] ∧
      nn.z = (if (initStore "aaaaaa" "bbbbbb").maxZ = 0 then 1
              else (initStore "aaaaaa" "bbbbbb").maxZ) + 1 ∧
      ∀ n ∈ (initStore "aaaaaa" "bbbbbb").nodes, n.z < nn.z :=
  ⟨by decide, by decide,
   addNode_assigns_fresh_max_z (initStore "aaaaaa" "bbbbbb") "logger"
     "cafe01" (0, 0) ""
     ({ label := "Logger", category := "sink",
        inputs := [⟨"state", "robot_state"⟩], outputs := [],
        params := [("tag", .str "run"), ("every_n", .num 1)] } : BlockSpec)
     (by decide) (by decide)⟩

/-- C8 counterexample: after `clearCanvas` on the initial store the
store is empty, yet the next added node receives z = 3, not 1 — the z
tracker survives the clear. -/
theorem addNode_empty_store_z_not_one :
    (clearCanvas (initStore "aaaaaa" "bbbbbb")).1.nodes = [] ∧
    ((addNode (clearCanvas (initStore "aaaaaa" "bbbbbb")).1
        "logger" "cafe01" (0, 0) "").1.nodes.map (fun n => n.z)) = [3] ∧
    (3 : Nat) ≠ 1 := by
  refine ⟨rfl, ?_, by decide⟩
  rfl

theorem hasSimNode_iff_any (s : Store) :
    s.nodes.any (fun n => n.type == "mujoco_sim") = true ↔ hasSimNode s := by
  simp [hasSimNode, List.any_eq_true]

theorem firstEmptyModelPath_all_ok_iff (l : List Node) :
    firstEmptyModelPath l = some none ↔
      ∀ n ∈ l, n.type = "mujoco_sim" →
        trimOrFalsy (lookupParam n.params "model_path") ≠ none ∧
        trimOrFalsy (lookupParam n.params "model_path") ≠ some "" := by
  induction l with
  | nil => simp [firstEmptyModelPath]
  | cons n rest ih =>
    unfold firstEmptyModelPath
    by_cases hty : n.type = "mujoco_sim"
    · rw [if_pos hty]
      cases htr : trimOrFalsy (lookupParam n.params "model_path") with
      | none =>
        constructor
        · intro h; exact Option.noConfusion h
        · intro h
          exact absurd htr (h n (List.mem_cons_self n rest) hty).1
      | some mp =>
        by_cases hmp : mp = ""
        · subst hmp
          change some (some n.id) = some none ↔ _
          constructor
          · intro h
            exact Option.noConfusion (Option.some.inj h)
          · intro h
            exact absurd htr (h n (List.mem_cons_self n rest) hty).2
        · change (if mp = "" then some (some n.id)
              else firstEmptyModelPath rest) = some none ↔ _
          rw [if_neg hmp, ih]
          constructor
          · intro h m hm htym
            rcases List.mem_cons.mp hm with rfl | hm2
            · rw [htr]
              exact ⟨fun he => Option.noConfusion he,
                     fun he => hmp (Option.some.inj he)⟩
            · exact h m hm2 htym
          · intro h m hm htym
            exact h m (List.mem_cons_of_mem n hm) htym
    · rw [if_neg hty, ih]
      constructor
      · intro h m hm htym
        rcases List.mem_cons.mp hm with rfl | hm2
        · exact absurd htym hty
        · exact h m hm2 htym
      · intro h m hm htym
        exact h m (List.mem_cons_of_mem n hm) htym

theorem simModelPathsOk_iff (s : Store) :
    simModelPathsOk s ↔ firstEmptyModelPath s.nodes = some none :=
  (firstEmptyModelPath_all_ok_iff s.nodes).symm

/-- C7 (amended): the network call happens exactly when all three guard
checks pass — some `mujoco_sim` node exists, every such node has a
model path trimming to a non-empty string, and at least one edge exists
— and any guard failure short-circuits with the failure reason and no
call; with zero edges (and the first two checks passing) the reason is
the verbatim source string "No connections (edges) yet". -/
theorem run_guard_gates_network_call :
    (∀ s : Store, validateForRun s = some RunCheck.ok ↔
        (hasSimNode s ∧ simModelPathsOk s ∧ s.edges ≠ [])) ∧
    (∀ (s : Store) (headless : Bool),
        runFromUI s headless
            = some (.callsBackend (buildGraphV1 s) headless) ↔
        validateForRun s = some RunCheck.ok) ∧
    (∀ (s : Store) (headless : Bool) (r : String),
        validateForRun s = some (.fail r) →
        runFromUI s headless = some (.validationFailed r)) ∧
    (∀ (s : Store) (headless : Bool),
        hasSimNode s → simModelPathsOk s → s.edges = [] →
        runFromUI s headless
          = some (.validationFailed "No connections (edges) yet")) := by
  have hval : ∀ s : Store, validateForRun s = some RunCheck.ok ↔
      (hasSimNode s ∧ simModelPathsOk s ∧ s.edges ≠ []) := by
    intro s
    unfold validateForRun
    by_cases hsim : s.nodes.any (fun n => n.type == "mujoco_sim") = true
    · rw [if_neg (not_not_intro hsim)]
      have hsim2 : hasSimNode s := (hasSimNode_iff_any s).mp hsim
      cases hfe : firstEmptyModelPath s.nodes with
      | none =>
        constructor
        · intro h; exact Option.noConfusion h
        · rintro ⟨-, hok, -⟩
          rw [(simModelPathsOk_iff s).mp hok] at hfe
          exact Option.noConfusion hfe
      | some o =>
        cases o with
        | none =>
          have hok : simModelPathsOk s := (simModelPathsOk_iff s).mpr hfe
          by_cases hlen : s.edges.length = 0
          · rw [if_pos hlen]
            constructor
            · intro h; exact RunCheck.noConfusion (Option.some.inj h)
            · rintro ⟨-, -, hne⟩
              exact absurd (List.length_eq_zero.mp hlen) hne
          · rw [if_neg hlen]
            simp only [true_iff, iff_true]
            exact ⟨hsim2, hok, fun he => hlen (by rw [he]; rfl)⟩
        | some nid =>
          constructor
          · intro h; exact RunCheck.noConfusion (Option.some.inj h)
          · rintro ⟨-, hok, -⟩
            rw [(simModelPathsOk_iff s).mp hok] at hfe
            exact Option.noConfusion (Option.some.inj hfe)
    · rw [if_pos hsim]
      constructor
      · intro h; exact RunCheck.noConfusion (Option.some.inj h)
      · rintro ⟨hs, -, -⟩
        exact absurd ((hasSimNode_iff_any s).mpr hs) hsim
  refine ⟨hval, ?_, ?_, ?_⟩
  · intro s headless
    unfold runFromUI
    cases hv : validateForRun s with
    | none => simp
    | some rc =>
      cases rc with
      | ok => simp
      | fail r => simp
  · intro s headless r hv
    unfold runFromUI
    rw [hv]
  · intro s headless hs hok he
    have hv : validateForRun s = some (.fail "No connections (edges) yet") := by
      unfold validateForRun
      rw [if_neg (not_not_intro ((hasSimNode_iff_any s).mpr hs)),
          (simModelPathsOk_iff s).mp hok]
      rw [if_pos (by rw [he]; rfl)]
    unfold runFromUI
    rw [hv]

/-- Witness for C7: a store with one simulator (model path set) and no
edges fails the guard with the verbatim reason and performs no call. -/
theorem run_guard_gates_network_call_witness :
    hasSimNode runGuardStore ∧ simModelPathsOk runGuardStore ∧
    runGuardStore.edges = [] ∧
    runFromUI runGuardStore true
      = some (.validationFailed "No connections (edges) yet") :=
  ⟨by decide, by decide, rfl,
   run_guard_gates_network_call.2.2.2 runGuardStore true (by decide)
     (by decide) rfl⟩

/-- C7 counterexample: with zero edges the code's reason string is
"No connections (edges) yet", not the claim's literal
"No connections yet". -/
theorem run_guard_message_differs_counterexample :
    runFromUI runGuardStore true
      = some (.validationFailed "No connections (edges) yet") ∧
    "No connections (edges) yet" ≠ "No connections yet" := by
  exact ⟨rfl, by decide⟩

/-- C1: for every connection-completion attempt with both endpoints
present, `canConnect` returns exactly what the ordered cascade
SameNode, NodeNotFound, PortNotFound, TypeMismatch, DuplicateEdge
prescribes — the first failing check is the single reported reason —
and in particular an attempt that both targets the same node and has
mismatched port types reports "Same node", not the type mismatch. -/
theorem canConnect_first_failure_wins :
    (∀ (s : Store) (f t : EndRef),
        canConnect (some f) (some t) s = canConnectSpec s f t) ∧
    canConnect (some ⟨"mujoco_sim_aaaaaa", "state"⟩)
        (some ⟨"mujoco_sim_aaaaaa", "command"⟩)
        (initStore "aaaaaa" "bbbbbb") = .fail "Same node" ∧
    checkTypeMismatch (initStore "aaaaaa" "bbbbbb")
        ⟨"mujoco_sim_aaaaaa", "state"⟩ ⟨"mujoco_sim_aaaaaa", "command"⟩
      = some "Type mismatch: robot_state → cartesian_cmd" := by
  refine ⟨?_, by decide, by decide⟩
  intro s f t
  unfold canConnect canConnectSpec connectionChecks firstFailure
  by_cases hsame : f.nodeId = t.nodeId
  · simp [checkSameNode, hsame]
  · cases hf : findNode s f.nodeId with
    | none =>
      simp [checkSameNode, checkNodeNotFound, hsame, hf]
    | some fn =>
      cases ht : findNode s t.nodeId with
      | none =>
        simp [checkSameNode, checkNodeNotFound, hsame, hf, ht]
      | some tn =>
        cases hot : getPortType fn.type f.port "output" with
        | none =>
          simp [checkSameNode, checkNodeNotFound, checkPortNotFound,
                checkTypeMismatch, resolvedPortType, hsame, hf, ht, hot]
        | some outT =>
          cases hit : getPortType tn.type t.port "input" with
          | none =>
            simp [checkSameNode, checkNodeNotFound, checkPortNotFound,
                  checkTypeMismatch, resolvedPortType, hsame, hf, ht, hot, hit]
          | some inT =>
            by_cases hty : outT = inT
            · subst hty
              by_cases hdup : s.edges.any (fun e =>
                  e.efrom == f.nodeId ++ "." ++ f.port &&
                  e.eto == t.nodeId ++ "." ++ t.port) = true
              · simp [checkSameNode, checkNodeNotFound, checkPortNotFound,
                      checkTypeMismatch, checkDuplicateEdge, resolvedPortType,
                      hsame, hf, ht, hot, hit, hdup]
              · simp [checkSameNode, checkNodeNotFound, checkPortNotFound,
                      checkTypeMismatch, checkDuplicateEdge, resolvedPortType,
                      hsame, hf, ht, hot, hit, hdup]
            · simp [checkSameNode, checkNodeNotFound, checkPortNotFound,
                    checkTypeMismatch, resolvedPortType,
                    hsame, hf, ht, hot, hit, hty]

theorem addNode_known_shape (s : Store) (ty newUid : String) (pos : ℚ × ℚ)
    (dm : String) (spec : BlockSpec) (hc : BLOCK_CATALOG ty = some spec) :
    ∃ nn : Node,
      (addNode s ty newUid pos dm).1.nodes = s.nodes ++ [nn] ∧
      (addNode s ty newUid pos dm).1.edges = s.edges := by
  unfold addNode
  rw [hc]
  exact ⟨_, rfl, rfl⟩

theorem removeSelectedNode_shape (s : Store) (id : String)
    (hsel : s.selectedNodeId = some id) :
    (removeSelectedNode s).1 =
      { s with
          nodes := s.nodes.filter (fun n => n.id ≠ id),
          edges := s.edges.filter
            (fun e => ¬ (jsStartsWith e.efrom (id ++ ".") ||
                         jsStartsWith e.eto (id ++ "."))),
          selectedNodeId := none } := by
  unfold removeSelectedNode
  rw [hsel]

theorem edgesConsistent_of_subset (s s2 : Store)
    (hn : ∀ n ∈ s.nodes, n ∈ s2.nodes) (he : ∀ e ∈ s2.edges, e ∈ s.edges)
    (h : edgesConsistent s) : edgesConsistent s2 := by
  intro e hme
  obtain ⟨⟨n1, hn1, hp1⟩, n2, hn2, hp2⟩ := h e (he e hme)
  exact ⟨⟨n1, hn n1 hn1, hp1⟩, n2, hn n2 hn2, hp2⟩

theorem applyNodeOp_preserves_edgesConsistent (s : Store) (op : NodeOp)
    (h : edgesConsistent s) : edgesConsistent (applyNodeOp s op) := by
  cases op with
  | add ty newUid pos dm =>
    show edgesConsistent (addNode s ty newUid pos dm).1
    cases hc : BLOCK_CATALOG ty with
    | none =>
      have hs : (addNode s ty newUid pos dm).1 = s := by
        unfold addNode; rw [hc]
      rwa [hs]
    | some spec =>
      obtain ⟨nn, hnodes, hedges⟩ := addNode_known_shape s ty newUid pos dm spec hc
      refine edgesConsistent_of_subset s _ ?_ ?_ h
      · intro n hn
        rw [hnodes]
        exact List.mem_append_left _ hn
      · intro e he
        rwa [hedges] at he
  | select sel =>
    exact fun e he => h e he
  | remove =>
    show edgesConsistent (removeSelectedNode s).1
    cases hsel : s.selectedNodeId with
    | none =>
      have hs : (removeSelectedNode s).1 = s := by
        unfold removeSelectedNode; rw [hsel]
      rwa [hs]
    | some id =>
      rw [removeSelectedNode_shape s id hsel]
      intro e he
      rw [List.mem_filter] at he
      obtain ⟨he1, he2⟩ := he
      have hkeep : ¬ (jsStartsWith e.efrom (id ++ ".") ||
          jsStartsWith e.eto (id ++ ".")) = true := of_decide_eq_true he2
      rw [Bool.or_eq_true] at hkeep
      push_neg at hkeep
      obtain ⟨hkf, hkt⟩ := hkeep
      obtain ⟨⟨n1, hn1, hp1⟩, n2, hn2, hp2⟩ := h e he1
      refine ⟨⟨n1, ?_, hp1⟩, n2, ?_, hp2⟩
      · refine List.mem_filter.mpr ⟨hn1, decide_eq_true ?_⟩
        intro hEq
        rw [hEq] at hp1
        exact hkf hp1
      · refine List.mem_filter.mpr ⟨hn2, decide_eq_true ?_⟩
        intro hEq
        rw [hEq] at hp2
        exact hkt hp2

theorem applyNodeOps_preserve_edgesConsistent (s : Store)
    (h : edgesConsistent s) :
    ∀ ops : List NodeOp, edgesConsistent (applyNodeOps s ops) := by
  intro ops
  induction ops generalizing s with
  | nil => exact h
  | cons op rest ih =>
    exact ih (applyNodeOp s op) (applyNodeOp_preserves_edgesConsistent s op h)

/-- C2: after any sequence of addNode / (select +) removeNode operations
— from any store satisfying the referential invariant, in particular
from the initial store — every edge endpoint still resolves to a node
present in the store (no dangling edge is ever observable: each
operation is one atomic store transition), and a removal deletes, in
that same transition, every edge whose from or to endpoint references
the removed node. -/
theorem nodeOps_never_dangle :
    (∀ s : Store, edgesConsistent s →
        ∀ ops : List NodeOp, edgesConsistent (applyNodeOps s ops)) ∧
    (∀ (simUid ctrlUid : String) (ops : List NodeOp),
        edgesConsistent (applyNodeOps (initStore simUid ctrlUid) ops)) ∧
    (∀ (s : Store) (id : String), s.selectedNodeId = some id →
        ∀ e ∈ (removeSelectedNode s).1.edges,
          jsStartsWith e.efrom (id ++ ".") = false ∧
          jsStartsWith e.eto (id ++ ".") = false) := by
  refine ⟨applyNodeOps_preserve_edgesConsistent, ?_, ?_⟩
  · intro simUid ctrlUid ops
    refine applyNodeOps_preserve_edgesConsistent _ ?_ ops
    intro e he
    exact absurd he (List.not_mem_nil e)
  · intro s id hsel e he
    rw [removeSelectedNode_shape s id hsel] at he
    rw [List.mem_filter] at he
    have hkeep : ¬ (jsStartsWith e.efrom (id ++ ".") ||
        jsStartsWith e.eto (id ++ ".")) = true := of_decide_eq_true he.2
    rw [Bool.or_eq_true] at hkeep
    push_neg at hkeep
    exact ⟨Bool.eq_false_iff.mpr hkeep.1, Bool.eq_false_iff.mpr hkeep.2⟩

/-- Witness for C2: the store holding one committed edge is consistent,
stays consistent after selecting and removing the simulator node, and
that removal leaves no edge anchored at the removed node. -/
theorem nodeOps_never_dangle_witness :
    edgesConsistent edgeStore ∧
    edgesConsistent (applyNodeOps edgeStore
      [NodeOp.select (some "mujoco_sim_aaaaaa"), NodeOp.remove,
       NodeOp.add "logger" "cafe01" (100, 100) ""]) :=
  ⟨by decide,
   nodeOps_never_dangle.1 edgeStore (by decide)
     [NodeOp.select (some "mujoco_sim_aaaaaa"), NodeOp.remove,
      NodeOp.add "logger" "cafe01" (100, 100) ""]⟩

theorem lookupParam_jsSet (ps : Params) (k kk : String) (v : JSValue) :
    lookupParam (jsSet ps k v) kk =
      if k = kk then some v else lookupParam ps kk := by
  induction ps with
  | nil => simp [jsSet, lookupParam]
  | cons p rest ih =>
    by_cases hpk : p.1 = k
    · by_cases hk : k = kk
      · subst hk
        simp [jsSet, lookupParam, hpk]
      · simp [jsSet, lookupParam, hpk, hk]
    · by_cases hpkk : p.1 = kk
      · have hk : ¬ k = kk := fun h => hpk (hpkk.trans h.symm)
        have hk2 : ¬ kk = k := fun h => hk h.symm
        simp [jsSet, lookupParam, hpk, hpkk, hk, hk2, ih]
      · simp [jsSet, lookupParam, hpk, hpkk, ih]

/-- C10: an inspector edit of the selected node's parameter `k` with
raw input `raw` stores, for `model_path`, always the raw string, and
for every other key `Number(raw)` exactly when the trimmed input is
non-empty and the conversion is not NaN, the raw string otherwise
(so "007" is stored as the number 7); only the selected node's `params`
entry at `k` changes — every other node, every other parameter, and the
edge list are untouched.  The closing conjuncts evaluate the `Number`
model on the claim's example and on each grammar family: leading-zero
decimals, fractions, exponents, hex, `Infinity`, and a NaN input. -/
theorem inspector_edit_stores_coerced_value :
    (∀ (s : Store) (sel k raw : String),
        s.selectedNodeId = some sel → inspectorUpdateSpec s sel k raw) ∧
    jsNumber "007" = some (.num 7) ∧ jsTrim "007" ≠ "" ∧
    jsNumber "12.5" = some (.num (25 / 2)) ∧
    jsNumber "1e5" = some (.num 100000) ∧
    jsNumber "-2.5e-1" = some (.num (-(1 / 4))) ∧
    jsNumber "0x10" = some (.num 16) ∧
    jsNumber "Infinity" = some (.inf false) ∧
    jsNumber "-Infinity" = some (.inf true) ∧
    jsNumber "abc" = none ∧ jsNumber " " = some (.num 0) := by
  have h125 : jsNumber "12.5" = some (.num (25 / 2)) := by
    rw [show jsNumber "12.5"
        = some (JSValue.num ((12 : ℚ) + (5 : ℚ) / (10 : ℚ) ^ (1 : Nat)))
      from rfl]
    norm_num
  have h1e5 : jsNumber "1e5" = some (.num 100000) := by
    rw [show jsNumber "1e5"
        = some (JSValue.num ((1 : ℚ) * (10 : ℚ) ^ (5 : ℤ))) from rfl]
    norm_num
  have hexp : jsNumber "-2.5e-1" = some (.num (-(1 / 4))) := by
    rw [show jsNumber "-2.5e-1"
        = some (JSValue.num
            (-(((2 : ℚ) + (5 : ℚ) / (10 : ℚ) ^ (1 : Nat)) *
               (10 : ℚ) ^ (-(1 : ℤ))))) from rfl]
    norm_num
  refine ⟨?_, by decide, by decide, h125, h1e5, hexp, by decide, by decide,
    by decide, by decide, by decide⟩
  intro s sel k raw hsel
  have hstep : inspectorParamInput s k raw
      = updateSelectedParam s k (storedParamValue k raw) := by
    unfold inspectorParamInput storedParamValue
    by_cases hk : k = "model_path"
    · rw [if_pos hk, if_pos hk]
    · rw [if_neg hk, if_neg hk]
  unfold inspectorUpdateSpec
  rw [hstep]
  unfold updateSelectedParam
  rw [hsel]
  refine ⟨rfl, rfl, rfl, rfl, rfl, ?_⟩
  rw [List.forall₂_map_right_iff, List.forall₂_same]
  intro n hn
  constructor
  · intro hne
    rw [if_neg hne]
  · intro heq
    rw [if_pos heq]
    refine ⟨rfl, rfl, rfl, rfl, rfl, rfl, ?_, ?_⟩
    · intro kk hkk
      show lookupParam (jsSet n.params k (storedParamValue k raw)) kk
          = lookupParam n.params kk
      rw [lookupParam_jsSet]
      exact if_neg (fun h => hkk h.symm)
    · show lookupParam (jsSet n.params k (storedParamValue k raw)) k
          = some (storedParamValue k raw)
      rw [lookupParam_jsSet, if_pos rfl]

/-- Witness for C10: editing `goal_x` of the selected controller with
the raw input "007". -/
theorem inspector_edit_stores_coerced_value_witness :
    inspectorStore.selectedNodeId = some "cartesian_control_bbbbbb" ∧
    inspectorUpdateSpec inspectorStore "cartesian_control_bbbbbb"
      "goal_x" "007" :=
  ⟨rfl, inspector_edit_stores_coerced_value.1 inspectorStore
     "cartesian_control_bbbbbb" "goal_x" "007" rfl⟩

theorem importNodesFrom_core_fields (i : Nat) (l : List Node) :
    (importNodesFrom i (l.map buildNodeDoc)).map
        (fun n => (n.id, n.type, n.params))
      = l.map (fun n => (n.id, n.type, n.params)) := by
  induction l generalizing i with
  | nil => rfl
  | cons n rest ih => simp [importNodesFrom, importNode, buildNodeDoc, ih]

theorem catalog_label_nonempty (ty : String) (sp : BlockSpec)
    (h : BLOCK_CATALOG ty = some sp) : sp.label ≠ "" := by
  unfold BLOCK_CATALOG at h
  split at h <;> first
    | exact Option.noConfusion h
    | (cases Option.some.inj h; decide)

theorem importNode_label (i : Nat) (n : Node) :
    (importNode i (buildNodeDoc n)).label
      = if n.label = "" then
          (match BLOCK_CATALOG n.type with
           | some sp => sp.label
           | none => n.type)
        else n.label := by
  unfold importNode buildNodeDoc jsOrS
  by_cases h : n.label = ""
  · rw [if_pos h, if_pos h]
    cases hc : BLOCK_CATALOG n.type with
    | none => rw [if_pos rfl]
    | some sp => rw [if_neg (catalog_label_nonempty n.type sp hc)]
  · rw [if_neg h, if_neg h]

theorem importNodesFrom_label_rel (i : Nat) (l : List Node) :
    List.Forall₂ (fun n nn =>
        (n.label ≠ "" → nn.label = n.label) ∧
        (n.label = "" →
          nn.label = match BLOCK_CATALOG n.type with
                     | some sp => sp.label
                     | none => n.type))
      l (importNodesFrom i (l.map buildNodeDoc)) := by
  induction l generalizing i with
  | nil => exact List.Forall₂.nil
  | cons n rest ih =>
    refine List.Forall₂.cons ⟨?_, ?_⟩ (ih (i + 1))
    · intro hne
      rw [importNode_label]
      exact if_neg hne
    · intro he
      rw [importNode_label, if_pos he]

theorem edge_eta_map (l : List Edge) :
    l.map (fun e => Edge.mk e.efrom e.eto e.msg_type) = l :=
  List.map_id l

/-- C3 (amended): serializing through `buildGraphV1` and deserializing
through `importGraph` preserves, for every store, the node ids, types
and params (position-wise), the full edge list (from/to endpoints and
msg_type), and the run configuration; node by node, a non-empty label
is preserved and an empty label is replaced by the catalog label of
the node's type, or by the type itself when the type is not in the
catalog. -/
theorem graphV1_roundTrip_equiv (s : Store) :
    (roundTrip s).nodes.map (fun n => (n.id, n.type, n.params))
        = s.nodes.map (fun n => (n.id, n.type, n.params)) ∧
    (roundTrip s).edges = s.edges ∧
    (roundTrip s).runCfg = s.runCfg ∧
    List.Forall₂ (fun n nn =>
        (n.label ≠ "" → nn.label = n.label) ∧
        (n.label = "" →
          nn.label = match BLOCK_CATALOG n.type with
                     | some sp => sp.label
                     | none => n.type))
      s.nodes (roundTrip s).nodes := by
  have hshape : roundTrip s = { s with
      nodes := importNodesFrom 0 (s.nodes.map buildNodeDoc),
      edges := (s.edges.map (fun e => Edge.mk e.efrom e.eto e.msg_type)).map
        (fun e => Edge.mk e.efrom e.eto e.msg_type),
      maxZ := importMaxZFrom 0 1 (s.nodes.map buildNodeDoc),
      runCfg := s.runCfg,
      selectedNodeId := none } := rfl
  refine ⟨?_, ?_, ?_, ?_⟩
  · rw [hshape]
    exact importNodesFrom_core_fields 0 s.nodes
  · rw [hshape]
    show (s.edges.map _).map _ = s.edges
    rw [edge_eta_map, edge_eta_map]
  · rw [hshape]
  · rw [hshape]
    exact importNodesFrom_label_rel 0 s.nodes

/-- Witness for C3: the per-node label rules applied to a concrete
mixed store — an empty label on a known type (replaced by the catalog
label), an empty label on an uncatalogued type (replaced by the type),
and a non-empty label (preserved) — together with the concrete label
values that result. -/
theorem graphV1_roundTrip_equiv_witness :
    List.Forall₂ (fun n nn =>
        (n.label ≠ "" → nn.label = n.label) ∧
        (n.label = "" →
          nn.label = match BLOCK_CATALOG n.type with
                     | some sp => sp.label
                     | none => n.type))
      mixedLabelStore.nodes (roundTrip mixedLabelStore).nodes ∧
    (roundTrip mixedLabelStore).nodes.map (fun n => n.label)
      = ["MuJoCo Sim", "ghost_block", "My Logger"] :=
  ⟨(graphV1_roundTrip_equiv mixedLabelStore).2.2.2, rfl⟩

/-- C3 counterexample: a store holding a node with the empty label does
not round trip label-equivalently — the import substitutes the catalog
label of its type. -/
theorem graphV1_roundTrip_label_counterexample :
    emptyLabelStore.nodes.map (fun n => n.label) = [""] ∧
    (roundTrip emptyLabelStore).nodes.map (fun n => n.label)
      = ["MuJoCo Sim"] ∧
    (roundTrip emptyLabelStore).nodes.map (fun n => n.label)
      ≠ emptyLabelStore.nodes.map (fun n => n.label) :=
  ⟨rfl, rfl, by decide⟩

theorem byOrderLe_iff (a b : Node) :
    byOrderLe a b = true ↔
      (prio a.type < prio b.type ∨
       (prio a.type = prio b.type ∧ a.label ++ a.id ≤ b.label ++ b.id)) := by
  unfold byOrderLe byOrder localeCompare
  rw [decide_eq_true_iff]
  by_cases hp : prio a.type = prio b.type
  · rw [if_neg (not_not_intro hp), hp]
    simp only [lt_irrefl, false_or, true_and]
    rcases lt_trichotomy (a.label ++ a.id) (b.label ++ b.id) with h | h | h
    · rw [if_pos h]
      exact iff_of_true (by norm_num) (le_of_lt h)
    · rw [if_neg (by rw [h]; exact lt_irrefl _),
          if_neg (by rw [h]; exact lt_irrefl _)]
      exact iff_of_true le_rfl (le_of_eq h)
    · rw [if_neg (asymm h), if_pos h]
      exact iff_of_false (by norm_num) (not_le.mpr h)
  · rw [if_pos hp, sub_nonpos]
    constructor
    · intro hle
      exact Or.inl (lt_of_le_of_ne hle hp)
    · rintro (hlt | ⟨heq, -⟩)
      · exact le_of_lt hlt
      · exact absurd heq hp

theorem byOrderLe_trans : ∀ a b c : Node,
    byOrderLe a b → byOrderLe b c → byOrderLe a c := by
  intro a b c hab hbc
  rw [byOrderLe_iff] at hab hbc ⊢
  rcases hab with h1 | ⟨h1, h1s⟩ <;> rcases hbc with h2 | ⟨h2, h2s⟩
  · exact Or.inl (lt_trans h1 h2)
  · exact Or.inl (h2 ▸ h1)
  · exact Or.inl (h1 ▸ h2)
  · exact Or.inr ⟨h1.trans h2, le_trans h1s h2s⟩

theorem byOrderLe_total : ∀ a b : Node,
    byOrderLe a b || byOrderLe b a := by
  intro a b
  rw [Bool.or_eq_true, byOrderLe_iff, byOrderLe_iff]
  rcases lt_trichotomy (prio a.type) (prio b.type) with h | h | h
  · exact Or.inl (Or.inl h)
  · rcases le_total (a.label ++ a.id) (b.label ++ b.id) with hs | hs
    · exact Or.inl (Or.inr ⟨h, hs⟩)
    · exact Or.inr (Or.inr ⟨h.symm, hs⟩)
  · exact Or.inr (Or.inl h)

/-- C4 (amended): the execution-order resolver returns exactly the ids
of the stable sort of the node list under the priority-tier-then-
label+id comparator: the result is a permutation of all node ids, and
in it any earlier node either sits in a strictly earlier category tier
or shares the tier with a label+id concatenation at most the later
one's (ascending, under the comparator's string collation).  It is a
pure function of the input node list; it is not, however, a function of
the node set alone, because two distinct same-tier nodes with identical
label+id concatenations stay in input order (stable sort). -/
theorem computeExecutionOrder_tiers_and_ties :
    ∀ nodes : List Node,
      computeExecutionOrder nodes
        = (nodes.mergeSort byOrderLe).map (fun n => n.id) ∧
      (nodes.mergeSort byOrderLe).Perm nodes ∧
      (computeExecutionOrder nodes).Perm (nodes.map (fun n => n.id)) ∧
      (nodes.mergeSort byOrderLe).Pairwise (fun a b =>
        prio a.type < prio b.type ∨
        (prio a.type = prio b.type ∧ a.label ++ a.id ≤ b.label ++ b.id)) := by
  intro nodes
  refine ⟨rfl, List.mergeSort_perm nodes byOrderLe, ?_, ?_⟩
  · show ((nodes.mergeSort byOrderLe).map (fun n => n.id)).Perm
        (nodes.map (fun n => n.id))
    exact (List.mergeSort_perm nodes byOrderLe).map (fun n => n.id)
  · have hs := List.sorted_mergeSort byOrderLe_trans byOrderLe_total nodes
    exact hs.imp (fun h => (byOrderLe_iff _ _).mp h)

/-- C4 counterexample: two distinct logger nodes whose label+id
concatenations are both "abc" ("ab"+"c" and "a"+"bc").  The two
orderings of the same two-node set produce different outputs, so the
output is not determined by the node set (same ids, types, labels)
alone. -/
theorem computeExecutionOrder_input_order_counterexample :
    ([concatCollisionA, concatCollisionB] : List Node).Perm
        [concatCollisionB, concatCollisionA] ∧
    computeExecutionOrder [concatCollisionA, concatCollisionB]
      = ["c", "bc"] ∧
    computeExecutionOrder [concatCollisionB, concatCollisionA]
      = ["bc", "c"] ∧
    computeExecutionOrder [concatCollisionA, concatCollisionB]
      ≠ computeExecutionOrder [concatCollisionB, concatCollisionA] := by
  have hAB : byOrderLe concatCollisionA concatCollisionB = true :=
    (byOrderLe_iff _ _).mpr (Or.inr ⟨rfl, le_of_eq (by decide)⟩)
  have hBA : byOrderLe concatCollisionB concatCollisionA = true :=
    (byOrderLe_iff _ _).mpr (Or.inr ⟨rfl, le_of_eq (by decide)⟩)
  have h1 : List.mergeSort [concatCollisionA, concatCollisionB] byOrderLe
      = [concatCollisionA, concatCollisionB] :=
    List.mergeSort_of_sorted (by
      refine List.Pairwise.cons ?_ (List.pairwise_singleton _ _)
      intro b hb
      rw [List.mem_singleton] at hb
      subst hb
      exact hAB)
  have h2 : List.mergeSort [concatCollisionB, concatCollisionA] byOrderLe
      = [concatCollisionB, concatCollisionA] :=
    List.mergeSort_of_sorted (by
      refine List.Pairwise.cons ?_ (List.pairwise_singleton _ _)
      intro b hb
      rw [List.mem_singleton] at hb
      subst hb
      exact hBA)
  have e1 : computeExecutionOrder [concatCollisionA, concatCollisionB]
      = ["c", "bc"] := by
    unfold computeExecutionOrder
    rw [h1]
    rfl
  have e2 : computeExecutionOrder [concatCollisionB, concatCollisionA]
      = ["bc", "c"] := by
    unfold computeExecutionOrder
    rw [h2]
    rfl
  refine ⟨List.Perm.swap concatCollisionB concatCollisionA [], e1, e2, ?_⟩
  rw [e1, e2]
  decide

end RobotBlocks
